import Mathlib

/-!
Verification of the ASCII metaball field animator
(`src/components/AsciiFluid.tsx`) against its specification.

The per-tick numeric simulation is embedded shallowly: JavaScript numbers
are modelled as exact rationals (`ℚ`), and the transcendental library
functions `Math.sin` / `Math.cos` — which are deterministic pure functions
of their argument — are abstracted as a `TrigModel` record of functions
`ℚ → ℚ`; properties that depend on the range of sine/cosine take the
hypothesis `TrigModel.Bounded` (the image lies in `[-1, 1]`).

The `requestAnimationFrame` / `cancelAnimationFrame` scheduling used by
the component's mount effect and its cleanup is embedded as an explicit
scheduler state (`RAFState`) with a pending-callback queue, a fresh-id
counter, and a count of render-target writes.
-/

namespace AsciiFluid

/-- Grid width, from the source (`const width = 160`). -/
def width : ℕ := 160

/-- Grid height, from the source (`const height = 56`). -/
def height : ℕ := 56

/-- The glyph ramp, from the source
(`const chars = "       .,-~:;=!*#$@"`), ordered from empty to solid. -/
def chars : List Char := "       .,-~:;=!*#$@".toList

/-- Abstraction of the `Math.sin` / `Math.cos` library functions:
deterministic pure functions of a rational argument. -/
structure TrigModel where
  sin : ℚ → ℚ
  cos : ℚ → ℚ

/-- The model's trig functions land in `[-1, 1]`, as real sine and
cosine do. -/
def TrigModel.Bounded (T : TrigModel) : Prop :=
  ∀ t : ℚ, |T.sin t| ≤ 1 ∧ |T.cos t| ≤ 1

/-- One blob, with the fields of the source's blob objects (`x`, `y`,
`kx`, `ky`, `speed`, `offset`, `radius`).  `kx` and `ky` are set at
initialization and never read by `renderFrame`. -/
structure Blob where
  x : ℚ
  y : ℚ
  kx : ℚ
  ky : ℚ
  speed : ℚ
  offset : ℚ
  radius : ℚ
deriving DecidableEq

/-- Simulation state: the clock `time` and the blob list. -/
structure SimState where
  time : ℚ
  blobs : List Blob
deriving DecidableEq

/-- New x-coordinate of a blob
(`(width / 2) + Math.sin(time * b.speed + b.offset) * (width * 0.35)
  + Math.cos(time * 0.2 * b.speed) * 15`). -/
def blobX (T : TrigModel) (time speed offset : ℚ) : ℚ :=
  ((width : ℚ) / 2) + T.sin (time * speed + offset) * ((width : ℚ) * 0.35)
    + T.cos (time * 0.2 * speed) * 15

/-- New y-coordinate of a blob
(`(height / 2) + Math.cos(time * b.speed * 0.8 + b.offset) * (height * 0.35)
  + Math.sin(time * 0.3 * b.speed) * 8`). -/
def blobY (T : TrigModel) (time speed offset : ℚ) : ℚ :=
  ((height : ℚ) / 2) + T.cos (time * speed * 0.8 + offset) * ((height : ℚ) * 0.35)
    + T.sin (time * 0.3 * speed) * 8

/-- New radius of a blob (`9 + Math.sin(time * 3 + b.offset) * 3`). -/
def blobRadius (T : TrigModel) (time offset : ℚ) : ℚ :=
  9 + T.sin (time * 3 + offset) * 3

/-- The per-tick blob update (`blobs.forEach(b => ...)` body):
position and radius are overwritten with closed-form functions of the
current time and the blob's own `speed` / `offset`; `kx`, `ky`, `speed`,
`offset` are untouched. -/
def updateBlob (T : TrigModel) (t : ℚ) (b : Blob) : Blob :=
  { b with
    x := blobX T t b.speed b.offset
    y := blobY T t b.speed b.offset
    radius := blobRadius T t b.offset }

/-- One simulation tick of `renderFrame`: first `time += 0.005`, then
every blob is updated from the new time. -/
def tick (T : TrigModel) (s : SimState) : SimState :=
  { time := s.time + 0.005
    blobs := s.blobs.map (updateBlob T (s.time + 0.005)) }

/-- One blob's metaball kernel contribution at cell `(x, y)`
(`dx = x - b.x; dy = (y - b.y) * 2.2; sumField += (rSq * 2.5) / (distSq + 8)`). -/
def contribution (b : Blob) (x y : ℚ) : ℚ :=
  let dx := x - b.x
  let dy := (y - b.y) * 2.2
  let rSq := b.radius * b.radius
  let distSq := dx * dx + dy * dy
  (rSq * 2.5) / (distSq + 8)

/-- The field at cell `(x, y)`: sum of all blobs' kernel contributions
(the `for (let b of blobs)` accumulation into `sumField`). -/
def sumField (bs : List Blob) (x y : ℚ) : ℚ :=
  (bs.map (fun b => contribution b x y)).sum

/-- Normalized intensity
(`norm = (val - 0.95) * 0.7; if (norm < 0) norm = 0; if (norm > 1) norm = 1`). -/
def normVal (v : ℚ) : ℚ :=
  let n := (v - 0.95) * 0.7
  if n < 0 then 0 else if n > 1 then 1 else n

/-- Glyph-ramp index
(`Math.floor(norm * (chars.length - 1))`). -/
def charIdx (v : ℚ) : ℕ :=
  (⌊normVal v * ((chars.length : ℚ) - 1)⌋).toNat

/-- The glyph written for a cell, as the source's `chars[charIdx]`
string indexing: `none` models JavaScript `undefined` when out of
bounds. -/
def cellGlyph (bs : List Blob) (x y : ℚ) : Option Char :=
  chars[charIdx (sumField bs x y)]?

/-- The glyph actually stored in the buffer for a cell (total form;
the default is never reached because the index is in bounds). -/
def cellChar (s : SimState) (x y : ℕ) : Char :=
  chars.getD (charIdx (sumField s.blobs (x : ℚ) (y : ℚ))) ' '

/-- One serialized row of the output (`for x ... output += buffer[...]`
followed by `output += "\n"`): `width` buffer characters then a line
break — also after the last row. -/
def rowChars (g : ℕ → ℕ → Char) (y : ℕ) : List Char :=
  ((List.range width).map (fun x => g x y)) ++ ['\n']

/-- The full serialized frame presented to the render target
(the `preRef.current.innerText = output` string), as a character list. -/
def renderOutput (g : ℕ → ℕ → Char) : List Char :=
  List.flatten ((List.range height).map (rowChars g))

/-- The frame rendered from a simulation state. -/
def frameOf (s : SimState) : List Char :=
  renderOutput (fun x y => cellChar s x y)

/-! The animation-frame scheduler, as seen by the component:
`requestAnimationFrame` hands back a fresh id and enqueues the callback
(always `renderFrame` here), `cancelAnimationFrame` removes a pending id
(a no-op on an id that already fired), and a frame boundary fires the
pending callback, which performs the buffer/render-target writes of one
tick and reschedules itself — discarding the new id, exactly as the
source's `requestAnimationFrame(renderFrame)` inside `renderFrame`
does. -/

/-- Scheduler state: fresh-id counter, queue of pending callback ids,
and the number of render-target writes performed so far. -/
structure RAFState where
  nextId : ℕ
  pending : List ℕ
  writes : ℕ
deriving DecidableEq

/-- `requestAnimationFrame(renderFrame)`: returns a fresh id and
enqueues it. -/
def requestFrame (s : RAFState) : ℕ × RAFState :=
  (s.nextId,
   { nextId := s.nextId + 1, pending := s.pending ++ [s.nextId], writes := s.writes })

/-- `cancelAnimationFrame(i)`: removes id `i` from the pending queue if
present; otherwise does nothing. -/
def cancelFrame (i : ℕ) (s : RAFState) : RAFState :=
  { s with pending := s.pending.erase i }

/-- One animation-frame boundary: if a callback is pending, it fires —
one tick's writes to the buffer and the render target happen — and the
callback reschedules itself, with the new id discarded (the source never
stores the id returned by the `requestAnimationFrame(renderFrame)` call
inside `renderFrame`). -/
def fireFrame (s : RAFState) : RAFState :=
  match s.pending with
  | [] => s
  | _ :: rest =>
      (requestFrame { nextId := s.nextId, pending := rest, writes := s.writes + 1 }).2

/-- The scheduler state before the effect runs. -/
def initRAF : RAFState := { nextId := 0, pending := [], writes := 0 }

/-- The mount effect's
`const animationId = requestAnimationFrame(renderFrame)`:
the returned id and the resulting scheduler state. -/
def mountAnim : ℕ × RAFState := requestFrame initRAF

/-- The effect's cleanup (`stop()`):
`() => cancelAnimationFrame(animationId)` — it always cancels the id
captured at mount. -/
def cleanup (s : RAFState) : RAFState := cancelFrame mountAnim.1 s

/-- A trig model with both functions constantly zero, used to
instantiate universally quantified results at concrete inputs. -/
def Tzero : TrigModel := { sin := fun _ => 0, cos := fun _ => 0 }

/-- A concrete blob with the source's deterministic initial position
(`width / 2`, `height / 2`) and zeroed random parameters. -/
def blobInit : Blob :=
  { x := 80, y := 28, kx := 0, ky := 0, speed := 0, offset := 0, radius := 9 }

/-- A concrete one-blob starting state with the clock at zero. -/
def simInit : SimState := { time := 0, blobs := [blobInit] }

/-- The blob of the spec's worked scenario: radius 10, positioned
exactly at cell (80, 28). -/
def probeBlob : Blob :=
  { x := 80, y := 28, kx := 0, ky := 0, speed := 0, offset := 0, radius := 10 }

/-- The concrete blob obtained by updating `blobInit` on the first tick
of `simInit` under the zero trig model. -/
def bUpd : Blob := updateBlob Tzero (simInit.time + 0.005) blobInit

/-- The run of the simulation from `simInit` under the zero trig model:
state after `n` ticks. -/
def simRun (n : ℕ) : SimState := (tick Tzero)^[n] simInit

/-! ### Helper lemmas -/

lemma chars_length : chars.length = 19 := rfl

lemma Tzero_bounded : Tzero.Bounded := by
  intro t
  constructor <;> simp [Tzero]

lemma normVal_nonneg (v : ℚ) : 0 ≤ normVal v := by
  simp only [normVal]
  split_ifs with h1 h2 <;> linarith

lemma normVal_le_one (v : ℚ) : normVal v ≤ 1 := by
  simp only [normVal]
  split_ifs with h1 h2 <;> linarith

lemma normVal_mono {a b : ℚ} (h : a ≤ b) : normVal a ≤ normVal b := by
  simp only [normVal]
  have hab : (a - 0.95) * 0.7 ≤ (b - 0.95) * 0.7 := by nlinarith
  split_ifs with h1 h2 h3 h4 <;> linarith

lemma charIdx_le (v : ℚ) : charIdx v ≤ 18 := by
  unfold charIdx
  have h1 : normVal v * ((chars.length : ℚ) - 1) ≤ 18 := by
    have h0 := normVal_nonneg v
    have hle := normVal_le_one v
    rw [chars_length]
    push_cast
    nlinarith
  have h2 : ⌊normVal v * ((chars.length : ℚ) - 1)⌋ ≤ 18 := by
    have h3 := Int.floor_le_floor h1
    simpa using h3
  omega

lemma charIdx_lt_length (v : ℚ) : charIdx v < chars.length := by
  have := charIdx_le v
  rw [chars_length]
  omega

lemma charIdx_mono {a b : ℚ} (h : a ≤ b) : charIdx a ≤ charIdx b := by
  unfold charIdx
  have hmul : normVal a * ((chars.length : ℚ) - 1)
      ≤ normVal b * ((chars.length : ℚ) - 1) := by
    have hm := normVal_mono h
    have h19 : (0:ℚ) ≤ (chars.length : ℚ) - 1 := by rw [chars_length]; norm_num
    nlinarith
  exact Int.toNat_le_toNat (Int.floor_le_floor hmul)

lemma contribution_nonneg (b : Blob) (x y : ℚ) : 0 ≤ contribution b x y := by
  show 0 ≤ (b.radius * b.radius * 2.5) /
      ((x - b.x) * (x - b.x) + ((y - b.y) * 2.2) * ((y - b.y) * 2.2) + 8)
  apply div_nonneg
  · nlinarith [mul_self_nonneg b.radius]
  · nlinarith [mul_self_nonneg (x - b.x), mul_self_nonneg ((y - b.y) * 2.2)]

lemma sumField_nonneg (bs : List Blob) (x y : ℚ) : 0 ≤ sumField bs x y := by
  unfold sumField
  apply List.sum_nonneg
  intro q hq
  obtain ⟨b, _, rfl⟩ := List.mem_map.1 hq
  exact contribution_nonneg b x y

lemma getD_chars_ne_newline : ∀ n : ℕ, chars.getD n ' ' ≠ '\n' := by
  intro n
  rw [List.getD_eq_getElem?_getD]
  cases h : chars[n]? with
  | none => simp
  | some c =>
      have hc : c ∈ chars := List.getElem?_mem h
      intro hcontra
      simp only [Option.getD_some] at hcontra
      subst hcontra
      revert hc
      decide

lemma cellChar_ne_newline (s : SimState) (x y : ℕ) : cellChar s x y ≠ '\n' :=
  getD_chars_ne_newline _

lemma rowChars_length (g : ℕ → ℕ → Char) (y : ℕ) :
    (rowChars g y).length = width + 1 := by
  simp [rowChars]

lemma rowChars_count_newline (g : ℕ → ℕ → Char) (y : ℕ)
    (h : ∀ x, g x y ≠ '\n') : (rowChars g y).count '\n' = 1 := by
  unfold rowChars
  rw [List.count_append]
  have h0 : ((List.range width).map (fun x => g x y)).count '\n' = 0 := by
    rw [List.count_eq_zero]
    intro hmem
    obtain ⟨x, _, hx⟩ := List.mem_map.1 hmem
    exact h x hx
  rw [h0]
  rfl

lemma rowChars_countP_glyph (g : ℕ → ℕ → Char) (y : ℕ)
    (h : ∀ x, g x y ≠ '\n') :
    (rowChars g y).countP (fun c => !(c == '\n')) = width := by
  unfold rowChars
  rw [List.countP_append]
  have h1 : ((List.range width).map (fun x => g x y)).countP (fun c => !(c == '\n'))
      = ((List.range width).map (fun x => g x y)).length := by
    rw [List.countP_eq_length]
    intro a ha
    obtain ⟨x, _, hx⟩ := List.mem_map.1 ha
    subst hx
    simpa using h x
  rw [h1]
  simp

lemma renderOutput_length (g : ℕ → ℕ → Char) :
    (renderOutput g).length = height * (width + 1) := by
  unfold renderOutput
  rw [List.length_flatten, List.map_map]
  have h1 : (List.range height).map (List.length ∘ rowChars g)
      = (List.range height).map (fun _ => width + 1) := by
    apply List.map_congr_left
    intro y _
    exact rowChars_length g y
  rw [h1, List.map_const', List.sum_replicate, smul_eq_mul, List.length_range]

lemma renderOutput_count_newline (g : ℕ → ℕ → Char)
    (h : ∀ x y, g x y ≠ '\n') : (renderOutput g).count '\n' = height := by
  unfold renderOutput
  rw [List.count_flatten, List.map_map]
  have h1 : (List.range height).map (List.count '\n' ∘ rowChars g)
      = (List.range height).map (fun _ => 1) := by
    apply List.map_congr_left
    intro y _
    exact rowChars_count_newline g y (fun x => h x y)
  rw [h1, List.map_const', List.sum_replicate, smul_eq_mul, List.length_range,
    mul_one]

lemma renderOutput_countP_glyph (g : ℕ → ℕ → Char)
    (h : ∀ x y, g x y ≠ '\n') :
    (renderOutput g).countP (fun c => !(c == '\n')) = width * height := by
  unfold renderOutput
  rw [List.countP_flatten, List.map_map]
  have h1 : (List.range height).map (List.countP (fun c => !(c == '\n')) ∘ rowChars g)
      = (List.range height).map (fun _ => width) := by
    apply List.map_congr_left
    intro y _
    exact rowChars_countP_glyph g y (fun x => h x y)
  rw [h1, List.map_const', List.sum_replicate, smul_eq_mul, List.length_range,
    Nat.mul_comm]

lemma blobX_bounds (T : TrigModel) (hT : T.Bounded) (t sp off : ℚ) :
    9 ≤ blobX T t sp off ∧ blobX T t sp off ≤ 151 := by
  have hs := (hT (t * sp + off)).1
  have hc := (hT (t * 0.2 * sp)).2
  rw [abs_le] at hs hc
  unfold blobX width
  push_cast
  constructor <;> nlinarith [hs.1, hs.2, hc.1, hc.2]

lemma blobY_bounds (T : TrigModel) (hT : T.Bounded) (t sp off : ℚ) :
    2/5 ≤ blobY T t sp off ∧ blobY T t sp off ≤ 278/5 := by
  have hc := (hT (t * sp * 0.8 + off)).2
  have hs := (hT (t * 0.3 * sp)).1
  rw [abs_le] at hs hc
  unfold blobY height
  push_cast
  constructor <;> nlinarith [hs.1, hs.2, hc.1, hc.2]

lemma blobRadius_bounds (T : TrigModel) (hT : T.Bounded) (t off : ℚ) :
    6 ≤ blobRadius T t off ∧ blobRadius T t off ≤ 12 := by
  have hs := (hT (t * 3 + off)).1
  rw [abs_le] at hs
  unfold blobRadius
  constructor <;> nlinarith [hs.1, hs.2]

lemma tick_blobs_getElem? (T : TrigModel) (s : SimState) (i : ℕ) (b : Blob)
    (h : s.blobs[i]? = some b) :
    (tick T s).blobs[i]? = some (updateBlob T (s.time + 0.005) b) := by
  show (s.blobs.map (updateBlob T (s.time + 0.005)))[i]? = _
  rw [List.getElem?_map, h]
  rfl

/-! ### Claim theorems -/

/-- C1. The claim says that after `stop()` returns no further writes to
the frame buffer or the render target ever occur, for every point at
which `stop()` may be invoked relative to the tick sequence.  The code
violates this: the cleanup cancels only the id captured at mount, while
the reschedule inside `renderFrame` discards its fresh id, so once the
first tick has fired the cleanup no longer cancels the pending callback
and a further write occurs (third conjunct).  The particular teardown
scenario of the claim — `stop()` before the first tick fires — does hold
(first conjunct: zero writes ever after). -/
theorem c1_cleanup_cancels_only_initial_frame :
    (∀ m : ℕ, (fireFrame^[m] (cleanup mountAnim.2)).writes = 0) ∧
    (cleanup (fireFrame mountAnim.2)).writes = 1 ∧
    (fireFrame (cleanup (fireFrame mountAnim.2))).writes = 2 := by
  refine ⟨?_, by decide, by decide⟩
  intro m
  have hfix : fireFrame (cleanup mountAnim.2) = cleanup mountAnim.2 := by decide
  rw [Function.iterate_fixed hfix m]
  decide

/-- C2 counterexample.  The claim says a serialized frame has exactly
`height - 1` line-break separators; in fact a rendered frame has exactly
`height` line breaks (the serialization loop appends one after every
row, the last included), so the claimed count is wrong on a concrete
frame. -/
theorem c2_counterexample_newline_count :
    (frameOf (tick Tzero simInit)).count '\n' = height ∧
    (frameOf (tick Tzero simInit)).count '\n' ≠ height - 1 := by
  have h := renderOutput_count_newline (fun x y => cellChar (tick Tzero simInit) x y)
    (fun x y => cellChar_ne_newline _ x y)
  unfold frameOf
  constructor
  · exact h
  · rw [h]; decide

/-- C2 (amended).  For every tick, regardless of the field values, the
serialized frame contains exactly `width × height` glyph characters and
exactly `height` line breaks — one terminating each row, the last row
included — so consecutive rows are separated by `height - 1` of them and
one trails the final row. -/
theorem c2_frame_glyph_and_newline_counts (g : ℕ → ℕ → Char)
    (h : ∀ x y, g x y ≠ '\n') :
    (renderOutput g).countP (fun c => !(c == '\n')) = width * height ∧
    (renderOutput g).count '\n' = height ∧
    (renderOutput g).length = height * (width + 1) :=
  ⟨renderOutput_countP_glyph g h, renderOutput_count_newline g h,
   renderOutput_length g⟩

/-- C2 witness: the amended count statement instantiated at the constant
buffer filled with the solid glyph. -/
theorem c2_frame_counts_witness :
    (('@' : Char) ≠ '\n') ∧
    ((renderOutput (fun _ _ => '@')).countP (fun c => !(c == '\n')) = width * height ∧
     (renderOutput (fun _ _ => '@')).count '\n' = height ∧
     (renderOutput (fun _ _ => '@')).length = height * (width + 1)) :=
  ⟨by decide,
   c2_frame_glyph_and_newline_counts (fun _ _ => '@')
     (fun x y => by show ('@' : Char) ≠ '\n'; decide)⟩

/-- C3. The spec's worked scenario: a single blob of radius 10 at cell
(80, 28) on the 160×56 grid gives field sum `(100·2.5)/(0+0+8) = 31.25`
at (80, 28), whose normalized intensity clamps to 1 and whose glyph
index is `chars.length - 1` (the solid character); at cell (110, 28) the
field sum is `250/908 < 0.95`, the normalized intensity clamps to 0, and
the sparsest glyph (index 0) is chosen. -/
theorem c3_single_blob_scenario :
    sumField [probeBlob] 80 28 = 100 * 2.5 / (0 + 0 + 8) ∧
    sumField [probeBlob] 80 28 = 31.25 ∧
    normVal (31.25) = 1 ∧
    charIdx (31.25) = chars.length - 1 ∧
    sumField [probeBlob] 110 28 = 250 / 908 ∧
    (250 / 908 : ℚ) < 0.95 ∧
    normVal (250 / 908) = 0 ∧
    charIdx (250 / 908) = 0 := by
  refine ⟨?_, ?_, ?_, ?_, ?_, by norm_num, ?_, ?_⟩
  · unfold sumField contribution probeBlob; norm_num
  · unfold sumField contribution probeBlob; norm_num
  · unfold normVal; rw [if_neg (by norm_num), if_pos (by norm_num)]
  · unfold charIdx normVal chars; norm_num; rfl
  · unfold sumField contribution probeBlob; norm_num
  · unfold normVal; rw [if_pos (by norm_num)]
  · unfold charIdx normVal chars; norm_num

/-- C4. For any two grid cells evaluated at the same tick, a strictly
greater field sum yields a glyph-ramp index that is greater than or
equal: the mapping from field sum through `normVal` and `charIdx` is
non-decreasing. -/
theorem c4_glyph_mapping_monotone (bs : List Blob) (xa ya xb yb : ℚ)
    (h : sumField bs xb yb < sumField bs xa ya) :
    charIdx (sumField bs xb yb) ≤ charIdx (sumField bs xa ya) :=
  charIdx_mono (le_of_lt h)

/-- C4 witness: the monotonicity theorem applied to the two cells of the
spec's worked scenario. -/
theorem c4_monotone_witness :
    sumField [probeBlob] 110 28 < sumField [probeBlob] 80 28 ∧
    charIdx (sumField [probeBlob] 110 28) ≤ charIdx (sumField [probeBlob] 80 28) := by
  have hlt : sumField [probeBlob] 110 28 < sumField [probeBlob] 80 28 := by
    unfold sumField contribution probeBlob; norm_num
  exact ⟨hlt, c4_glyph_mapping_monotone [probeBlob] 80 28 110 28 hlt⟩

/-- C5. Determinism: any two runs of the tick loop from the same initial
state under the same trig model produce identical sequences of rendered
frames — the per-tick computation is a pure function of the state, with
no source of randomness or external input after initialization. -/
theorem c5_deterministic_frames (T : TrigModel) (init : SimState)
    (r1 r2 : ℕ → SimState)
    (h10 : r1 0 = init) (h20 : r2 0 = init)
    (h1s : ∀ n, r1 (n + 1) = tick T (r1 n))
    (h2s : ∀ n, r2 (n + 1) = tick T (r2 n)) :
    ∀ n, frameOf (r1 n) = frameOf (r2 n) := by
  have key : ∀ m, r1 m = r2 m := by
    intro m
    induction m with
    | zero => rw [h10, h20]
    | succ k ih => rw [h1s, h2s, ih]
  intro n
  rw [key n]

/-- C5 witness: the determinism theorem applied to the concrete run
`simRun` compared against itself. -/
theorem c5_deterministic_witness :
    simRun 0 = simInit ∧ frameOf (simRun 2) = frameOf (simRun 2) :=
  ⟨rfl,
   c5_deterministic_frames Tzero simInit simRun simRun rfl rfl
     (fun n => Function.iterate_succ_apply' (tick Tzero) n simInit)
     (fun n => Function.iterate_succ_apply' (tick Tzero) n simInit) 2⟩

/-- C6. For every tick and every blob, the recomputed position lies
within `[0, width) × [0, height)` whenever the trig functions stay in
`[-1, 1]`: with the code's constants the x-coordinate lies in `[9, 151]`
and the y-coordinate in `[0.4, 55.6]`. -/
theorem c6_positions_within_grid (T : TrigModel) (s : SimState) (i : ℕ) (b : Blob)
    (hT : T.Bounded) (hget : (tick T s).blobs[i]? = some b) :
    (0 ≤ b.x ∧ b.x < (width : ℚ)) ∧ (0 ≤ b.y ∧ b.y < (height : ℚ)) := by
  have hmap : (tick T s).blobs[i]? = s.blobs[i]?.map (updateBlob T (s.time + 0.005)) := by
    show (s.blobs.map (updateBlob T (s.time + 0.005)))[i]? = _
    rw [List.getElem?_map]
  rw [hmap, Option.map_eq_some'] at hget
  obtain ⟨b0, _, rfl⟩ := hget
  have hx := blobX_bounds T hT (s.time + 0.005) b0.speed b0.offset
  have hy := blobY_bounds T hT (s.time + 0.005) b0.speed b0.offset
  have hw : ((width : ℕ) : ℚ) = 160 := by norm_num [width]
  have hh : ((height : ℕ) : ℚ) = 56 := by norm_num [height]
  simp only [updateBlob]
  rw [hw, hh]
  exact ⟨⟨by linarith [hx.1], by linarith [hx.2]⟩,
         ⟨by linarith [hy.1], by linarith [hy.2]⟩⟩

/-- C6 witness: the position-bound theorem applied to the first tick of
the concrete one-blob state under the zero trig model. -/
theorem c6_positions_witness :
    Tzero.Bounded ∧
    ((0 ≤ bUpd.x ∧ bUpd.x < (width : ℚ)) ∧ (0 ≤ bUpd.y ∧ bUpd.y < (height : ℚ))) :=
  ⟨Tzero_bounded, c6_positions_within_grid Tzero simInit 0 bUpd Tzero_bounded rfl⟩

/-- C7. On every tick, the clock is first advanced by the fixed
increment 0.005 and each blob's position and radius are then recomputed
as the closed-form functions `blobX` / `blobY` / `blobRadius` of the new
time and that blob's own fixed `speed` / `offset` parameters only —
these functions take no other blob's state and not the blob's own
previous position. -/
theorem c7_time_advance_and_closed_form (T : TrigModel) (s : SimState) (i : ℕ)
    (b : Blob) (hget : s.blobs[i]? = some b) :
    (tick T s).time = s.time + 0.005 ∧
    (tick T s).blobs[i]? = some
      { b with
        x := blobX T (s.time + 0.005) b.speed b.offset
        y := blobY T (s.time + 0.005) b.speed b.offset
        radius := blobRadius T (s.time + 0.005) b.offset } :=
  ⟨rfl, tick_blobs_getElem? T s i b hget⟩

/-- C7 witness: the closed-form update theorem applied to the concrete
one-blob state under the zero trig model. -/
theorem c7_closed_form_witness :
    simInit.blobs[0]? = some blobInit ∧
    ((tick Tzero simInit).time = simInit.time + 0.005 ∧
     (tick Tzero simInit).blobs[0]? = some
       { blobInit with
         x := blobX Tzero (simInit.time + 0.005) blobInit.speed blobInit.offset
         y := blobY Tzero (simInit.time + 0.005) blobInit.speed blobInit.offset
         radius := blobRadius Tzero (simInit.time + 0.005) blobInit.offset }) :=
  ⟨rfl, c7_time_advance_and_closed_form Tzero simInit 0 blobInit rfl⟩

/-- C8. For every tick and every blob, the recomputed oscillating radius
`9 + sin(3·time + offset)·3` stays within `[6, 12]` — in particular it
is never zero or negative — whenever the trig functions stay in
`[-1, 1]`. -/
theorem c8_radius_bounds (T : TrigModel) (s : SimState) (i : ℕ) (b : Blob)
    (hT : T.Bounded) (hget : (tick T s).blobs[i]? = some b) :
    0 < b.radius ∧ 6 ≤ b.radius ∧ b.radius ≤ 12 := by
  have hmap : (tick T s).blobs[i]? = s.blobs[i]?.map (updateBlob T (s.time + 0.005)) := by
    show (s.blobs.map (updateBlob T (s.time + 0.005)))[i]? = _
    rw [List.getElem?_map]
  rw [hmap, Option.map_eq_some'] at hget
  obtain ⟨b0, _, rfl⟩ := hget
  have hr := blobRadius_bounds T hT (s.time + 0.005) b0.offset
  simp only [updateBlob]
  exact ⟨by linarith [hr.1], hr.1, hr.2⟩

/-- C8 witness: the radius-bound theorem applied to the first tick of
the concrete one-blob state under the zero trig model. -/
theorem c8_radius_witness :
    Tzero.Bounded ∧ (0 < bUpd.radius ∧ 6 ≤ bUpd.radius ∧ bUpd.radius ≤ 12) :=
  ⟨Tzero_bounded, c8_radius_bounds Tzero simInit 0 bUpd Tzero_bounded rfl⟩

/-- C9. For every grid cell, every blob's kernel contribution is
non-negative (its numerator is a square times the positive gain and its
denominator a sum of squares plus 8), and hence the field sum is
non-negative. -/
theorem c9_field_nonneg (bs : List Blob) (b : Blob) (x y : ℚ) :
    0 ≤ contribution b x y ∧ 0 ≤ sumField bs x y :=
  ⟨contribution_nonneg b x y, sumField_nonneg bs x y⟩

/-- C10. For every tick and every grid cell, the clamped normalized
intensity lies in `[0, 1]`, the computed glyph index is strictly below
the ramp length, and indexing the glyph ramp therefore yields a defined
character for the cell. -/
theorem c10_glyph_index_in_range (bs : List Blob) (x y : ℚ) :
    0 ≤ normVal (sumField bs x y) ∧ normVal (sumField bs x y) ≤ 1 ∧
    charIdx (sumField bs x y) < chars.length ∧
    (cellGlyph bs x y).isSome = true := by
  refine ⟨normVal_nonneg _, normVal_le_one _, charIdx_lt_length _, ?_⟩
  unfold cellGlyph
  rw [List.getElem?_eq_getElem (charIdx_lt_length _)]
  rfl

end AsciiFluid
